import Mathlib

/-!
Verification of the dbt-schema-to-DDL generator (`generate_ddl.py`).

The Python source is shallowly embedded below.  Python dictionaries with
optional keys become structures with `Option` fields (`none` = key absent);
Python exceptions become an `Except PyErr` result; Python's insertion-ordered
dictionary becomes an association list with Python's update semantics
(assigning to an existing key keeps its position, a new key is appended).
String surgery (`str.split`) is embedded by structurally recursive functions
on `List Char` that reproduce Python's leftmost, non-overlapping semantics
for the two marker splits the source performs.
-/

/-- Exceptions the embedded fragment of the program can raise. -/
inductive PyErr where
  | keyError (k : String)
  | indexError
  | runtimeError (msg : String)
  deriving DecidableEq, Repr

/-- One element of a column's `tests` collection: either a bare string tag
(`not_null`, `unique`, ...) or a relationship mapping
`\x7brelationships: \x7bto: ..., field: ...\x7d\x7d`. -/
inductive TestItem where
  | tag (s : String)
  | relationships (toRef : String) (field : String)
  deriving DecidableEq, Repr

/-- A column entry of a table.  `none` models an absent key. -/
structure Column where
  name : Option String
  tests : Option (List TestItem)
  deriving DecidableEq, Repr

/-- A table entry of the `models` sequence.  `none` models an absent key. -/
structure Table where
  name : Option String
  primary_key : Option String
  columns : Option (List Column)
  deriving DecidableEq, Repr

/-- The root document; `models` is `none` when the key is missing. -/
structure SchemaDocument where
  models : Option (List Table)
  deriving DecidableEq, Repr

/-- The per-table dictionary built by `process_schema`.  The `primary_key`
slot is `none` exactly when the Python dictionary lacks that key (the source
stores it only when a primary-key statement was produced). -/
structure ConstraintSet where
  primary_key : Option String
  non_null : List String
  uniqueness : List String
  foreign_keys : List String
  deriving DecidableEq, Repr

/-- The apostrophe character, written by code to keep it out of literals. -/
def apos : Char := Char.ofNat 39

/-- The apostrophe as a one-character string. -/
def aposS : String := String.mk [apos]

/-- Characters of the opening marker `ref(` followed by an apostrophe. -/
def refMarker : List Char := ['r', 'e', 'f', '('] ++ [apos]

/-- Characters of the closing marker: apostrophe then `)`. -/
def closeMarker : List Char := [apos, ')']

/-- Whether `p` is a prefix of `s` (character lists). -/
def hasPrefixC : List Char → List Char → Bool
  | [], _ => true
  | _ :: _, [] => false
  | p :: ps, c :: cs => p = c && hasPrefixC ps cs

/-- Text strictly after the first occurrence of `sep` in `s`, or `none` when
`sep` does not occur.  This is Python `s.split(sep)[1:]` refused at `[1]`
when the separator is absent. -/
def afterFirst? (sep : List Char) : List Char → Option (List Char)
  | [] => if hasPrefixC sep [] then some [] else none
  | c :: cs =>
    if hasPrefixC sep (c :: cs) then some ((c :: cs).drop sep.length)
    else afterFirst? sep cs

/-- Text strictly before the first occurrence of `sep` in `s` (all of `s`
when `sep` does not occur): Python `s.split(sep)[0]`. -/
def takeUntil (sep : List Char) : List Char → List Char
  | [] => []
  | c :: cs => if hasPrefixC sep (c :: cs) then [] else c :: takeUntil sep cs

/-- Python `d[k]` on an optional slot: `KeyError` when the key is absent. -/
def pyGet (v : Option String) (k : String) : Except PyErr String :=
  match v with
  | some s => Except.ok s
  | none => Except.error (PyErr.keyError k)


/-- Membership of the bare tag `t` in a column's `tests` collection:
Python `t in column.get('tests', '')` (absent tests make the check false,
and a relationship mapping never equals a string). -/
def hasTag (c : Column) (t : String) : Bool :=
  match c.tests with
  | none => false
  | some l => l.any (fun x => x = TestItem.tag t)

/-- The primary-key statement template of `get_ddl_primary_key`. -/
def pkStmt (q tn pk : String) : String :=
  "ALTER TABLE " ++ q ++ "." ++ tn ++ " ADD PRIMARY KEY (" ++ pk ++ ");"

/-- The not-null statement template of `get_ddl_non_null`. -/
def nonNullStmt (q tn cn : String) : String :=
  "ALTER TABLE " ++ q ++ "." ++ tn ++ " ALTER COLUMN " ++ cn ++ " SET NOT NULL;"

/-- The constraint name `unique_<qualifier>_<table>_<column>` used by
`get_ddl_unique`. -/
def uniqueConstraintName (q tn cn : String) : String :=
  "unique_" ++ q ++ "_" ++ tn ++ "_" ++ cn

/-- The uniqueness statement template of `get_ddl_unique`. -/
def uniqueStmt (q tn cn : String) : String :=
  "ALTER TABLE " ++ q ++ "." ++ tn ++ " ADD CONSTRAINT " ++
    uniqueConstraintName q tn cn ++ " UNIQUE (" ++ cn ++ ");"

/-- The constraint name `fk_<q>_<table>_<column>_<dest_table>_<dest_column>`
used by `get_ddl_foreign_keys`. -/
def fkConstraintName (q tn cn dt dc : String) : String :=
  "fk_" ++ q ++ "_" ++ tn ++ "_" ++ cn ++ "_" ++ dt ++ "_" ++ dc

/-- The foreign-key statement template of `get_ddl_foreign_keys`. -/
def fkStmt (q tn cn dt dc : String) : String :=
  "ALTER TABLE " ++ q ++ "." ++ tn ++ " ADD CONSTRAINT " ++
    fkConstraintName q tn cn dt dc ++ " FOREIGN KEY (" ++ cn ++
    ") REFERENCES " ++ q ++ "." ++ dt ++ " (" ++ dc ++ ");"

/-- `tests['relationships']['to'].split("ref('")[1].split("')")[0]`:
`IndexError` when the opening marker is absent; otherwise the text between
the first opening marker and the earlier of the next opening marker or the
first closing marker after it (Python split pieces are bounded by the next
occurrence of the same separator). -/
def extractDestTable (toRef : String) : Except PyErr String :=
  match afterFirst? refMarker toRef.toList with
  | none => Except.error PyErr.indexError
  | some rest =>
    Except.ok (String.mk (takeUntil closeMarker (takeUntil refMarker rest)))

/-- `get_ddl_primary_key`: a statement only when both the table name and the
`primary_key` field are present and truthy. -/
def get_ddl_primary_key (q : String) (t : Table) : Option String :=
  match t.name, t.primary_key with
  | some tn, some pk =>
    if tn ≠ "" ∧ pk ≠ "" then some (pkStmt q tn pk) else none
  | _, _ => none

/-- Column loop of `get_ddl_non_null`: appends one statement per column
tagged `not_null`, raising `KeyError` when such a column lacks `name`. -/
def nnCols (q tn : String) : List Column → Except PyErr (List String)
  | [] => Except.ok []
  | c :: cs =>
    if hasTag c "not_null" then
      match pyGet c.name "name" with
      | Except.error e => Except.error e
      | Except.ok cn =>
        match nnCols q tn cs with
        | Except.error e => Except.error e
        | Except.ok rest => Except.ok (nonNullStmt q tn cn :: rest)
    else nnCols q tn cs

/-- `get_ddl_non_null`. -/
def get_ddl_non_null (q : String) (t : Table) : Except PyErr (List String) :=
  match t.name with
  | some tn => if tn = "" then Except.ok [] else nnCols q tn (t.columns.getD [])
  | none => Except.ok []

/-- Column loop of `get_ddl_unique`. -/
def uqCols (q tn : String) : List Column → Except PyErr (List String)
  | [] => Except.ok []
  | c :: cs =>
    if hasTag c "unique" then
      match pyGet c.name "name" with
      | Except.error e => Except.error e
      | Except.ok cn =>
        match uqCols q tn cs with
        | Except.error e => Except.error e
        | Except.ok rest => Except.ok (uniqueStmt q tn cn :: rest)
    else uqCols q tn cs

/-- `get_ddl_unique`. -/
def get_ddl_unique (q : String) (t : Table) : Except PyErr (List String) :=
  match t.name with
  | some tn => if tn = "" then Except.ok [] else uqCols q tn (t.columns.getD [])
  | none => Except.ok []

/-- Test loop of `get_ddl_foreign_keys` for one column: for each
relationship-shaped test, first the destination table is extracted (possible
`IndexError`), then `column['name']` is read (possible `KeyError`), matching
the evaluation order of the source. -/
def fkTests (q tn : String) (cname : Option String) :
    List TestItem → Except PyErr (List String)
  | [] => Except.ok []
  | TestItem.tag _ :: rest => fkTests q tn cname rest
  | TestItem.relationships toRef fld :: rest =>
    match extractDestTable toRef with
    | Except.error e => Except.error e
    | Except.ok dt =>
      match pyGet cname "name" with
      | Except.error e => Except.error e
      | Except.ok cn =>
        match fkTests q tn cname rest with
        | Except.error e => Except.error e
        | Except.ok stmts => Except.ok (fkStmt q tn cn dt fld :: stmts)

/-- Column loop of `get_ddl_foreign_keys`. -/
def fkCols (q tn : String) : List Column → Except PyErr (List String)
  | [] => Except.ok []
  | c :: cs =>
    match fkTests q tn c.name (c.tests.getD []) with
    | Except.error e => Except.error e
    | Except.ok s =>
      match fkCols q tn cs with
      | Except.error e => Except.error e
      | Except.ok rest => Except.ok (s ++ rest)

/-- `get_ddl_foreign_keys`. -/
def get_ddl_foreign_keys (q : String) (t : Table) :
    Except PyErr (List String) :=
  match t.name with
  | some tn => if tn = "" then Except.ok [] else fkCols q tn (t.columns.getD [])
  | none => Except.ok []

/-- The loop body of `process_schema` for one table: calls the four
extractors and assembles the per-table dictionary; the `primary_key` key is
stored only when the primary-key statement is truthy. -/
def tableCS (q : String) (t : Table) : Except PyErr ConstraintSet :=
  match get_ddl_non_null q t with
  | Except.error e => Except.error e
  | Except.ok nn =>
    match get_ddl_unique q t with
    | Except.error e => Except.error e
    | Except.ok uq =>
      match get_ddl_foreign_keys q t with
      | Except.error e => Except.error e
      | Except.ok fk =>
        Except.ok
          { primary_key :=
              match get_ddl_primary_key q t with
              | some s => if s ≠ "" then some s else none
              | none => none
            non_null := nn
            uniqueness := uq
            foreign_keys := fk }

/-- Python dictionary assignment `d[k] = v` on an insertion-ordered
dictionary: an existing key keeps its position, a new key is appended. -/
def dictSet (d : List (String × ConstraintSet)) (k : String)
    (v : ConstraintSet) : List (String × ConstraintSet) :=
  if d.any (fun p => p.1 = k) then
    d.map (fun p => if p.1 = k then (k, v) else p)
  else d ++ [(k, v)]

/-- Python dictionary lookup `d[k]` as an option. -/
def dictFind? (k : String) : List (String × ConstraintSet) → Option ConstraintSet
  | [] => none
  | p :: rest => if p.1 = k then some p.2 else dictFind? k rest

/-- The table loop of `process_schema`.  A table without a `name` key takes
the structural-error branch, but building the `RuntimeError` message itself
evaluates `table['name']`, so the branch actually raises `KeyError('name')`;
the `RuntimeError` construction below is unreachable. -/
def processTables (q : String) :
    List Table → List (String × ConstraintSet) →
    Except PyErr (List (String × ConstraintSet))
  | [], acc => Except.ok acc
  | t :: ts, acc =>
    match t.name with
    | none =>
      (match pyGet t.name "name" with
       | Except.error e => Except.error e
       | Except.ok n =>
         Except.error (PyErr.runtimeError
           ("table " ++ n ++ " does not have a name key in the given yml file")))
    | some tn =>
      match tableCS q t with
      | Except.error e => Except.error e
      | Except.ok cs => processTables q ts (dictSet acc tn cs)

/-- `process_schema` (with the document already loaded): rejects a document
without the `models` key, then folds the table loop. -/
def process_schema (doc : SchemaDocument) (q : String) :
    Except PyErr (List (String × ConstraintSet)) :=
  match doc.models with
  | none =>
    Except.error (PyErr.runtimeError
      (aposS ++ "models" ++ aposS ++
       " not contained in first level keys of the given yml file"))
  | some ms => processTables q ms []

/-- The banner written before pass 1 of the renderer (trailing space as in
the source). -/
def banner1 : String :=
  "-- Adding primary_key, non_null, uniqueness ddl statements \n\n"

/-- The banner written before pass 2 of the renderer. -/
def banner2 : String := "-- Adding foreign key ddl statements \n\n"

/-- Per-table header comment of the renderer. -/
def tableHeader (k : String) : String := "-- Processing table " ++ k ++ "\n\n"

/-- Pass 1 of `write_ddl_to_file`: per table, the header, then
`val['primary_key']` — a `KeyError` when the slot is absent — then the
non-null and uniqueness statements and a blank separator. -/
def renderPass1 : List (String × ConstraintSet) → Except PyErr String
  | [] => Except.ok ""
  | (k, v) :: rest =>
    match v.primary_key with
    | none => Except.error (PyErr.keyError "primary_key")
    | some pk =>
      match renderPass1 rest with
      | Except.error e => Except.error e
      | Except.ok restTxt =>
        Except.ok (tableHeader k ++
          (if pk ≠ "" then pk ++ "\n" else "") ++
          String.join (v.non_null.map (fun s => s ++ "\n")) ++
          String.join (v.uniqueness.map (fun s => s ++ "\n")) ++
          "\n\n" ++ restTxt)

/-- Pass 2 of `write_ddl_to_file`: tables with no foreign keys are skipped
entirely; otherwise the header, the statements and a blank separator. -/
def renderPass2 : List (String × ConstraintSet) → String
  | [] => ""
  | (k, v) :: rest =>
    (if v.foreign_keys.length = 0 then ""
     else tableHeader k ++
       String.join (v.foreign_keys.map (fun s => s ++ "\n")) ++ "\n\n") ++
    renderPass2 rest

/-- The text assembled by `write_ddl_to_file` (file writing elided). -/
def write_ddl_text (dd : List (String × ConstraintSet)) :
    Except PyErr String :=
  match renderPass1 dd with
  | Except.error e => Except.error e
  | Except.ok p1 => Except.ok (banner1 ++ p1 ++ banner2 ++ renderPass2 dd)

/-- `write_ddl_to_file` end to end: process the document, then render. -/
def processAndRender (doc : SchemaDocument) (q : String) :
    Except PyErr String :=
  match process_schema doc q with
  | Except.error e => Except.error e
  | Except.ok dd => write_ddl_text dd

/-- Greedy check that each piece occurs in `text`, each strictly after the
end of the previous piece's first occurrence. -/
def containsInOrder : List Char → List (List Char) → Bool
  | _, [] => true
  | text, p :: ps =>
    match afterFirst? p text with
    | none => false
    | some rest => containsInOrder rest ps

/-- The table of property C5: column `order_id` of `line_items` with one
relationship test to `ref(` apostrophe `orders` apostrophe `)`, field `id`. -/
def tblC5 : Table :=
  { name := some "line_items", primary_key := none,
    columns := some [{ name := some "order_id",
                       tests := some [TestItem.relationships
                         ("ref(" ++ aposS ++ "orders" ++ aposS ++ ")") "id"] }] }
/-- The table of the C3 counterexample: the `to` field contains the opening
marker but no closing marker at all. -/
def tblC3cex : Table :=
  { name := some "t", primary_key := none,
    columns := some [{ name := some "c",
                       tests := some [TestItem.relationships
                         ("ref(" ++ aposS ++ "orders") "id"] }] }
/-- The document of property C6. -/
def docC6 : SchemaDocument :=
  { models := some [
      { name := some "users", primary_key := some "id",
        columns := some [
          { name := some "id",
            tests := some [TestItem.tag "not_null", TestItem.tag "unique"] },
          { name := some "org_id",
            tests := some [TestItem.relationships
              ("ref(" ++ aposS ++ "orgs" ++ aposS ++ ")") "id"] }] }] }
/-- The full text rendered for the C6 document under qualifier `public`. -/
def c6_expected : String :=
  "-- Adding primary_key, non_null, uniqueness ddl statements \n\n" ++
  "-- Processing table users\n\n" ++
  "ALTER TABLE public.users ADD PRIMARY KEY (id);\n" ++
  "ALTER TABLE public.users ALTER COLUMN id SET NOT NULL;\n" ++
  "ALTER TABLE public.users ADD CONSTRAINT unique_public_users_id UNIQUE (id);\n" ++
  "\n\n" ++
  "-- Adding foreign key ddl statements \n\n" ++
  "-- Processing table users\n\n" ++
  "ALTER TABLE public.users ADD CONSTRAINT fk_public_users_org_id_orgs_id FOREIGN KEY (org_id) REFERENCES public.orgs (id);\n" ++
  "\n\n"
/-- The column list used to witness C8. -/
def colsC8 : List Column :=
  [{ name := some "a", tests := some [TestItem.tag "not_null"] },
   { name := some "b",
     tests := some [TestItem.tag "unique", TestItem.tag "not_null"] },
   { name := some "c", tests := some [TestItem.tag "pk"] }]
/-- First-occurrence deduplication with an explicit seen accumulator. -/
def firstDedupAux (seen : List String) : List String → List String
  | [] => []
  | x :: xs =>
    if seen.any (fun y => y = x) then firstDedupAux seen xs
    else x :: firstDedupAux (x :: seen) xs
/-- Keep the first occurrence of each string, in order. -/
def firstDedup (xs : List String) : List String := firstDedupAux [] xs
/-- A document with two distinct tables sharing the name `a`. -/
def modelsC9 : List Table :=
  [⟨some "a", some "k", some []⟩,
   ⟨some "b", none, some []⟩,
   ⟨some "a", none, some []⟩]


/-- C5: the foreign-key extractor, applied to qualifier `analytics` and table
`line_items` whose column `order_id` carries the single relationship test to
`orders` with field `id`, produces exactly the one expected `ALTER TABLE ...
ADD CONSTRAINT fk_analytics_line_items_order_id_orders_id ...` statement. -/
theorem c5_fk_concrete :
    get_ddl_foreign_keys "analytics" tblC5 =
      Except.ok ["ALTER TABLE analytics.line_items ADD CONSTRAINT fk_analytics_line_items_order_id_orders_id FOREIGN KEY (order_id) REFERENCES analytics.orders (id);"] :=
  rfl

/-- C7: for every table entry lacking a `name` field, the not-null,
uniqueness and foreign-key extractors each return the empty sequence and no
error, regardless of the table's other contents. -/
theorem c7_no_name_empty (q : String) (pk : Option String)
    (cols : Option (List Column)) :
    get_ddl_non_null q { name := none, primary_key := pk, columns := cols }
        = Except.ok [] ∧
    get_ddl_unique q { name := none, primary_key := pk, columns := cols }
        = Except.ok [] ∧
    get_ddl_foreign_keys q { name := none, primary_key := pk, columns := cols }
        = Except.ok [] :=
  ⟨rfl, rfl, rfl⟩

/-- C1: a named table with no primary key, no columns and no tests does not
render: pass 1 raises `KeyError` at `val['primary_key']`, because
`process_schema` stores the `primary_key` slot only when a primary key
exists, while the renderer reads it unconditionally. -/
theorem c1_render_keyerror :
    processAndRender
      { models := some [{ name := some "t", primary_key := none,
                          columns := none }] } "s"
      = Except.error (PyErr.keyError "primary_key") :=
  rfl

/-- C2: a table entry lacking `name` aborts the run with `KeyError('name')`,
raised while formatting the intended `RuntimeError` message (whose f-string
reads `table['name']`), not with the documented structural `RuntimeError`. -/
theorem c2_missing_name_keyerror :
    process_schema
      { models := some [{ name := none, primary_key := none,
                          columns := none }] } "s"
      = Except.error (PyErr.keyError "name") :=
  rfl


/-- C3 counterexample: a relationship test whose `to` field lacks the
closing marker (so the `ref(...)` marker pair is incomplete) does NOT make
the foreign-key extractor fail — it silently produces a statement using the
text after the opening marker as the destination table. -/
theorem c3_counterexample :
    afterFirst? closeMarker ("ref(" ++ aposS ++ "orders").toList = none ∧
    get_ddl_foreign_keys "s" tblC3cex =
      Except.ok [fkStmt "s" "t" "c" "orders" "id"] :=
  ⟨rfl, rfl⟩

/-- C4 counterexample: two distinct (qualifier, table, column) triples whose
components contain underscores receive the same uniqueness constraint
name. -/
theorem c4_counterexample :
    uniqueConstraintName "a_b" "c" "d" = uniqueConstraintName "a" "b_c" "d" ∧
    ¬ ((("a_b" : String), ("c" : String), ("d" : String)) =
       (("a" : String), ("b_c" : String), ("d" : String))) :=
  ⟨rfl, by decide⟩



set_option maxRecDepth 100000 in
/-- C6: the `users` document under qualifier `public` renders text
containing, in order, the primary-key statement, the not-null statement for
`id`, the uniqueness statement for `id`, the foreign-key banner, and the
foreign-key statement referencing `orgs (id)`; and the foreign-key statement
does not occur in the text before the foreign-key banner. -/
theorem c6_end_to_end :
    processAndRender docC6 "public" = Except.ok c6_expected ∧
    containsInOrder c6_expected.toList
      [(pkStmt "public" "users" "id").toList,
       (nonNullStmt "public" "users" "id").toList,
       (uniqueStmt "public" "users" "id").toList,
       banner2.toList,
       (fkStmt "public" "users" "org_id" "orgs" "id").toList] = true ∧
    afterFirst? (fkStmt "public" "users" "org_id" "orgs" "id").toList
      (takeUntil banner2.toList c6_expected.toList) = none :=
  ⟨rfl, rfl, rfl⟩

/-- When every `not_null`-tagged column has a `name` key, the not-null column
loop succeeds and returns one statement per tagged column, in input order. -/
theorem nnCols_ok (q tn : String) (cols : List Column)
    (h : ∀ c ∈ cols, hasTag c "not_null" = true → c.name.isSome) :
    nnCols q tn cols =
      Except.ok ((cols.filter (fun c => hasTag c "not_null")).map
        (fun c => nonNullStmt q tn (c.name.getD ""))) := by
  induction cols with
  | nil => rfl
  | cons c cs ih =>
    have ih' := ih (fun d hd ht => h d (List.mem_cons_of_mem _ hd) ht)
    by_cases htag : hasTag c "not_null" = true
    · rcases Option.isSome_iff_exists.mp
        (h c (List.mem_cons_self _ _) htag) with ⟨cn, hcn⟩
      simp [nnCols, htag, hcn, pyGet, ih', List.filter_cons]
    · simp [nnCols, htag, ih', List.filter_cons]

/-- When every `unique`-tagged column has a `name` key, the uniqueness column
loop succeeds and returns one statement per tagged column, in input order. -/
theorem uqCols_ok (q tn : String) (cols : List Column)
    (h : ∀ c ∈ cols, hasTag c "unique" = true → c.name.isSome) :
    uqCols q tn cols =
      Except.ok ((cols.filter (fun c => hasTag c "unique")).map
        (fun c => uniqueStmt q tn (c.name.getD ""))) := by
  induction cols with
  | nil => rfl
  | cons c cs ih =>
    have ih' := ih (fun d hd ht => h d (List.mem_cons_of_mem _ hd) ht)
    by_cases htag : hasTag c "unique" = true
    · rcases Option.isSome_iff_exists.mp
        (h c (List.mem_cons_self _ _) htag) with ⟨cn, hcn⟩
      simp [uqCols, htag, hcn, pyGet, ih', List.filter_cons]
    · simp [uqCols, htag, ih', List.filter_cons]

/-- C8: for every table with a (truthy) name whose tagged columns all carry a
`name` key, the not-null and the uniqueness extractor each produce exactly
one statement per column whose `tests` collection contains the respective
tag — the outputs are the tagged columns, filtered in input order, mapped
through the statement templates. -/
theorem c8_count_order (q tn : String) (htn : tn ≠ "") (pk : Option String)
    (cols : List Column)
    (hnn : ∀ c ∈ cols, hasTag c "not_null" = true → c.name.isSome)
    (huq : ∀ c ∈ cols, hasTag c "unique" = true → c.name.isSome) :
    get_ddl_non_null q ⟨some tn, pk, some cols⟩
      = Except.ok ((cols.filter (fun c => hasTag c "not_null")).map
          (fun c => nonNullStmt q tn (c.name.getD ""))) ∧
    get_ddl_unique q ⟨some tn, pk, some cols⟩
      = Except.ok ((cols.filter (fun c => hasTag c "unique")).map
          (fun c => uniqueStmt q tn (c.name.getD ""))) := by
  refine ⟨?_, ?_⟩
  · simp only [get_ddl_non_null, Option.getD_some]
    rw [if_neg htn]
    exact nnCols_ok q tn cols hnn
  · simp only [get_ddl_unique, Option.getD_some]
    rw [if_neg htn]
    exact uqCols_ok q tn cols huq


/-- Witness for C8 at a concrete table. -/
theorem c8_count_order_witness :
    get_ddl_non_null "s" ⟨some "t", none, some colsC8⟩
      = Except.ok ((colsC8.filter (fun c => hasTag c "not_null")).map
          (fun c => nonNullStmt "s" "t" (c.name.getD ""))) ∧
    get_ddl_unique "s" ⟨some "t", none, some colsC8⟩
      = Except.ok ((colsC8.filter (fun c => hasTag c "unique")).map
          (fun c => uniqueStmt "s" "t" (c.name.getD ""))) :=
  c8_count_order "s" "t" (by decide) none colsC8 (by decide) (by decide)

/-- A `not_null`-tagged column without a `name` key makes the not-null
column loop raise `KeyError('name')`. -/
theorem nnCols_err (q tn : String) (cols : List Column)
    (h : ∃ c ∈ cols, hasTag c "not_null" = true ∧ c.name = none) :
    nnCols q tn cols = Except.error (PyErr.keyError "name") := by
  induction cols with
  | nil => simp at h
  | cons c cs ih =>
    rcases h with ⟨d, hd, htag, hname⟩
    rcases List.mem_cons.mp hd with rfl | hd'
    · simp [nnCols, htag, hname, pyGet]
    · by_cases htagc : hasTag c "not_null" = true
      · cases hcn : c.name with
        | none => simp [nnCols, htagc, hcn, pyGet]
        | some cn => simp [nnCols, htagc, hcn, pyGet, ih ⟨d, hd', htag, hname⟩]
      · simp [nnCols, htagc, ih ⟨d, hd', htag, hname⟩]

/-- A `unique`-tagged column without a `name` key makes the uniqueness
column loop raise `KeyError('name')`. -/
theorem uqCols_err (q tn : String) (cols : List Column)
    (h : ∃ c ∈ cols, hasTag c "unique" = true ∧ c.name = none) :
    uqCols q tn cols = Except.error (PyErr.keyError "name") := by
  induction cols with
  | nil => simp at h
  | cons c cs ih =>
    rcases h with ⟨d, hd, htag, hname⟩
    rcases List.mem_cons.mp hd with rfl | hd'
    · simp [uqCols, htag, hname, pyGet]
    · by_cases htagc : hasTag c "unique" = true
      · cases hcn : c.name with
        | none => simp [uqCols, htagc, hcn, pyGet]
        | some cn => simp [uqCols, htagc, hcn, pyGet, ih ⟨d, hd', htag, hname⟩]
      · simp [uqCols, htagc, ih ⟨d, hd', htag, hname⟩]

/-- C10: for a table with a (truthy) name, if some column's `tests`
collection contains the `not_null` tag (respectively the `unique` tag) but
that column lacks a `name` field, the not-null (respectively uniqueness)
extractor raises an uncontrolled `KeyError` instead of skipping the column
or returning an empty sequence. -/
theorem c10_nameless_column_error (q tn : String) (htn : tn ≠ "")
    (pk : Option String) (cols : List Column) :
    ((∃ c ∈ cols, hasTag c "not_null" = true ∧ c.name = none) →
      get_ddl_non_null q ⟨some tn, pk, some cols⟩
        = Except.error (PyErr.keyError "name")) ∧
    ((∃ c ∈ cols, hasTag c "unique" = true ∧ c.name = none) →
      get_ddl_unique q ⟨some tn, pk, some cols⟩
        = Except.error (PyErr.keyError "name")) := by
  refine ⟨fun h => ?_, fun h => ?_⟩
  · simp only [get_ddl_non_null, Option.getD_some]
    rw [if_neg htn]
    exact nnCols_err q tn cols h
  · simp only [get_ddl_unique, Option.getD_some]
    rw [if_neg htn]
    exact uqCols_err q tn cols h

/-- Witness for C10 at a concrete table with a nameless tagged column. -/
theorem c10_nameless_column_error_witness :
    get_ddl_non_null "s" ⟨some "t", none, some [⟨none, some [TestItem.tag "not_null", TestItem.tag "unique"]⟩]⟩
      = Except.error (PyErr.keyError "name") ∧
    get_ddl_unique "s" ⟨some "t", none, some [⟨none, some [TestItem.tag "not_null", TestItem.tag "unique"]⟩]⟩
      = Except.error (PyErr.keyError "name") :=
  ⟨(c10_nameless_column_error "s" "t" (by decide) none _).1 (by decide),
   (c10_nameless_column_error "s" "t" (by decide) none _).2 (by decide)⟩

/-- `hasPrefixC p s` holds exactly when `s` starts with `p`. -/
theorem hasPrefixC_iff : ∀ (p s : List Char),
    hasPrefixC p s = true ↔ ∃ r, s = p ++ r
  | [], s => by simp [hasPrefixC]
  | a :: ps, [] => by simp [hasPrefixC]
  | a :: ps, c :: cs => by
    rw [show hasPrefixC (a :: ps) (c :: cs)
          = (decide (a = c) && hasPrefixC ps cs) from rfl]
    simp only [Bool.and_eq_true, decide_eq_true_eq, hasPrefixC_iff ps cs]
    constructor
    · rintro ⟨rfl, r, rfl⟩
      exact ⟨r, rfl⟩
    · rintro ⟨r, hr⟩
      injection hr with h1 h2
      exact ⟨h1.symm, r, h2⟩

/-- `afterFirst? sep s` finds something exactly when `sep` occurs as a
contiguous substring of `s`. -/
theorem afterFirst?_isSome_iff (sep : List Char) :
    ∀ s, (afterFirst? sep s).isSome = true ↔ ∃ l r, s = l ++ sep ++ r := by
  intro s
  induction s with
  | nil =>
    constructor
    · intro h
      rw [afterFirst?] at h
      by_cases hp : hasPrefixC sep [] = true
      · rcases (hasPrefixC_iff sep []).mp hp with ⟨r, hr⟩
        exact ⟨[], r, by simpa using hr⟩
      · rw [if_neg hp] at h
        simp at h
    · rintro ⟨l, r, hlr⟩
      rcases List.append_eq_nil.mp (List.append_eq_nil.mp hlr.symm).1
        with ⟨rfl, rfl⟩
      rw [afterFirst?]
      simp [hasPrefixC]
  | cons c cs ih =>
    rw [afterFirst?]
    by_cases hp : hasPrefixC sep (c :: cs) = true
    · rw [if_pos hp]
      simp only [Option.isSome_some, true_iff]
      rcases (hasPrefixC_iff _ _).mp hp with ⟨r, hr⟩
      exact ⟨[], r, by simpa using hr⟩
    · rw [if_neg hp, ih]
      constructor
      · rintro ⟨l, r, rfl⟩
        exact ⟨c :: l, r, rfl⟩
      · rintro ⟨l, r, hlr⟩
        cases l with
        | nil =>
          exact absurd ((hasPrefixC_iff _ _).mpr ⟨r, by simpa using hlr⟩) hp
        | cons x l =>
          injection hlr with h1 h2
          exact ⟨l, r, h2⟩

/-- C3 amended: on a named table whose column carries one relationship test,
the foreign-key extractor fails (with an uncontrolled `IndexError`) exactly
when the opening marker is absent from the `to` field; when the opening
marker occurs, extraction always succeeds with a single statement — even if
the closing marker is missing — so a missing closing marker yields a
silently produced statement, not a failure. -/
theorem c3_amended (q tn cn toRef fld : String) (htn : tn ≠ "") :
    (¬ (∃ l r, toRef.toList = l ++ refMarker ++ r) →
      get_ddl_foreign_keys q
          ⟨some tn, none,
           some [⟨some cn, some [TestItem.relationships toRef fld]⟩]⟩
        = Except.error PyErr.indexError) ∧
    ((∃ l r, toRef.toList = l ++ refMarker ++ r) →
      ∃ dt, get_ddl_foreign_keys q
          ⟨some tn, none,
           some [⟨some cn, some [TestItem.relationships toRef fld]⟩]⟩
        = Except.ok [fkStmt q tn cn dt fld]) := by
  constructor
  · intro h
    have hnone : afterFirst? refMarker toRef.toList = none := by
      cases haf : afterFirst? refMarker toRef.toList with
      | none => rfl
      | some rest =>
        exact absurd ((afterFirst?_isSome_iff _ _).mp (by rw [haf]; rfl)) h
    simp only [String.toList] at hnone
    simp [get_ddl_foreign_keys, htn, fkCols, fkTests, extractDestTable,
      hnone, pyGet]
  · intro h
    rcases Option.isSome_iff_exists.mp ((afterFirst?_isSome_iff _ _).mpr h)
      with ⟨rest, hrest⟩
    refine ⟨String.mk (takeUntil closeMarker (takeUntil refMarker rest)), ?_⟩
    simp only [String.toList] at hrest
    simp [get_ddl_foreign_keys, htn, fkCols, fkTests, extractDestTable,
      hrest, pyGet]

/-- Witness for C3 amended: the opening marker present, the closing marker
absent, and the extractor succeeds. -/
theorem c3_amended_witness :
    ∃ dt, get_ddl_foreign_keys "s"
        ⟨some "t", none,
         some [⟨some "c",
           some [TestItem.relationships ("ref(" ++ aposS ++ "x") "f"]⟩]⟩
      = Except.ok [fkStmt "s" "t" "c" dt "f"] :=
  (c3_amended "s" "t" "c" ("ref(" ++ aposS ++ "x") "f" (by decide)).2
    ⟨[], ['x'], by decide⟩

/-- String append acts as list append on the underlying character data. -/
theorem string_data_append (a b : String) : (a ++ b).data = a.data ++ b.data :=
  rfl

/-- Underscore-joined underscore-free components can be recovered uniquely:
if two underscore-free blocks followed by an underscore-separated remainder
agree, the blocks and the remainders agree. -/
theorem usep_inj : ∀ (xs ys : List Char), '_' ∉ xs → '_' ∉ ys →
    ∀ r₁ r₂ : List Char, xs ++ '_' :: r₁ = ys ++ '_' :: r₂ →
      xs = ys ∧ r₁ = r₂
  | [], [], _, _, r₁, r₂, h => ⟨rfl, by injection h⟩
  | [], y :: ys, _, hy, r₁, r₂, h => by
    injection h with h1 h2
    subst h1
    exact absurd (List.mem_cons_self _ _) hy
  | x :: xs, [], hx, _, r₁, r₂, h => by
    injection h with h1 h2
    subst h1
    exact absurd (List.mem_cons_self _ _) hx
  | x :: xs, y :: ys, hx, hy, r₁, r₂, h => by
    injection h with h1 h2
    have hrec := usep_inj xs ys (fun hm => hx (List.mem_cons_of_mem _ hm))
      (fun hm => hy (List.mem_cons_of_mem _ hm)) r₁ r₂ h2
    exact ⟨by rw [h1, hrec.1], hrec.2⟩

/-- C4 amended: for (qualifier, table, column) triples whose components
contain no underscore, equal uniqueness constraint names force equal
triples; distinct such triples therefore receive distinct names.  (The
underscore-freedom proviso is necessary: see the counterexample.) -/
theorem c4_amended (q₁ t₁ c₁ q₂ t₂ c₂ : String)
    (hq₁ : '_' ∉ q₁.data) (ht₁ : '_' ∉ t₁.data) (hc₁ : '_' ∉ c₁.data)
    (hq₂ : '_' ∉ q₂.data) (ht₂ : '_' ∉ t₂.data) (hc₂ : '_' ∉ c₂.data)
    (h : uniqueConstraintName q₁ t₁ c₁ = uniqueConstraintName q₂ t₂ c₂) :
    q₁ = q₂ ∧ t₁ = t₂ ∧ c₁ = c₂ := by
  have hu : ("unique_" : String).data = ("unique" : String).data ++ ['_'] :=
    rfl
  have hs : ("_" : String).data = ['_'] := rfl
  have hd := congrArg String.data h
  simp only [uniqueConstraintName, string_data_append, hu, hs,
    List.append_assoc, List.cons_append, List.nil_append] at hd
  obtain ⟨-, hd1⟩ := usep_inj ("unique" : String).data ("unique" : String).data
    (by decide) (by decide) _ _ hd
  obtain ⟨hq, hd2⟩ := usep_inj q₁.data q₂.data hq₁ hq₂ _ _ hd1
  obtain ⟨ht, hc⟩ := usep_inj t₁.data t₂.data ht₁ ht₂ _ _ hd2
  exact ⟨congrArg String.mk hq, congrArg String.mk ht, congrArg String.mk hc⟩

/-- Witness for C4 amended at concrete underscore-free components. -/
theorem c4_amended_witness :
    ("a" : String) = "a" ∧ ("b" : String) = "b" ∧ ("c" : String) = "c" :=
  c4_amended "a" "b" "c" "a" "b" "c" (by decide) (by decide) (by decide)
    (by decide) (by decide) (by decide) rfl



/-- Updating matching pairs in place does not change the key sequence. -/
theorem map_update_fst (k : String) (v : ConstraintSet) :
    ∀ d : List (String × ConstraintSet),
      ((d.map fun p => if p.1 = k then (k, v) else p).map Prod.fst)
        = d.map Prod.fst
  | [] => rfl
  | p :: d => by
    by_cases hp : p.1 = k
    · simp [hp, map_update_fst k v d]
    · simp [hp, map_update_fst k v d]

/-- Lookup of a key distinct from the updated one is unchanged by the
in-place update. -/
theorem find_map_ne (k k' : String) (v : ConstraintSet) (hk : k ≠ k') :
    ∀ d : List (String × ConstraintSet),
      dictFind? k (d.map fun p => if p.1 = k' then (k', v) else p)
        = dictFind? k d
  | [] => rfl
  | p :: d => by
    by_cases hp : p.1 = k'
    · have hpk : ¬ p.1 = k := fun hc => hk (hc.symm.trans hp)
      simp only [List.map_cons, if_pos hp, dictFind?]
      rw [if_neg (fun hc => hk hc.symm), if_neg hpk]
      exact find_map_ne k k' v hk d
    · simp only [List.map_cons, if_neg hp, dictFind?]
      by_cases hpk : p.1 = k
      · rw [if_pos hpk, if_pos hpk]
      · rw [if_neg hpk, if_neg hpk]
        exact find_map_ne k k' v hk d

/-- When the key occurs, the in-place update makes its lookup the new
value. -/
theorem find_map_eq (k : String) (v : ConstraintSet) :
    ∀ d : List (String × ConstraintSet),
      d.any (fun p => p.1 = k) = true →
      dictFind? k (d.map fun p => if p.1 = k then (k, v) else p) = some v
  | p :: d, h => by
    by_cases hp : p.1 = k
    · simp [dictFind?, hp]
    · simp only [List.map_cons, if_neg hp, dictFind?, if_neg hp]
      have h' : d.any (fun p => p.1 = k) = true := by
        simpa [List.any_cons, hp] using h
      exact find_map_eq k v d h'

/-- Lookup distributes over append, trying the left part first. -/
theorem find_append (k : String) :
    ∀ d₁ d₂ : List (String × ConstraintSet),
      dictFind? k (d₁ ++ d₂) =
        match dictFind? k d₁ with
        | some w => some w
        | none => dictFind? k d₂
  | [], d₂ => rfl
  | p :: d₁, d₂ => by
    by_cases hp : p.1 = k
    · simp [dictFind?, hp]
    · simp only [List.cons_append, dictFind?, if_neg hp]
      exact find_append k d₁ d₂

/-- A key that occurs nowhere has no lookup result. -/
theorem find_none_of_not_any (k : String) :
    ∀ d : List (String × ConstraintSet),
      d.any (fun p => p.1 = k) = false → dictFind? k d = none
  | [], _ => rfl
  | p :: d, h => by
    have hp : ¬ p.1 = k := by
      intro hc
      simp [List.any_cons, hc] at h
    have h' : d.any (fun p => p.1 = k) = false := by
      simpa [List.any_cons, hp] using h
    simp only [dictFind?, if_neg hp]
    exact find_none_of_not_any k d h'

/-- Lookup after a Python dictionary assignment: the assigned key now maps
to the new value, every other key is untouched. -/
theorem dictFind?_dictSet (d : List (String × ConstraintSet)) (k k' : String)
    (v : ConstraintSet) :
    dictFind? k (dictSet d k' v) = if k = k' then some v else dictFind? k d := by
  unfold dictSet
  by_cases h : d.any (fun p => p.1 = k') = true
  · rw [if_pos h]
    by_cases hk : k = k'
    · subst hk
      rw [if_pos rfl]
      exact find_map_eq k v d h
    · rw [if_neg hk]
      exact find_map_ne k k' v hk d
  · rw [if_neg h, find_append]
    have h0 : d.any (fun p => p.1 = k') = false := by
      cases hcase : d.any (fun p => p.1 = k') with
      | true => exact absurd hcase h
      | false => rfl
    by_cases hk : k = k'
    · subst hk
      rw [find_none_of_not_any k d h0]
      simp [dictFind?]
    · rw [if_neg hk]
      cases hfd : dictFind? k d with
      | some w => rfl
      | none =>
        simp [dictFind?]
        exact fun hc => hk hc.symm

/-- The key sequence after a Python dictionary assignment: unchanged when
the key already occurs, extended by the key otherwise. -/
theorem dictSet_keys (d : List (String × ConstraintSet)) (k : String)
    (v : ConstraintSet) :
    (dictSet d k v).map Prod.fst =
      if d.any (fun p => p.1 = k) then d.map Prod.fst
      else d.map Prod.fst ++ [k] := by
  unfold dictSet
  by_cases h : d.any (fun p => p.1 = k) = true
  · rw [if_pos h, if_pos h]
    exact map_update_fst k v d
  · rw [if_neg h, if_neg h]
    simp

/-- `firstDedupAux` depends on the seen accumulator only through which
strings it contains. -/
theorem firstDedupAux_congr :
    ∀ (xs seen₁ seen₂ : List String),
      (∀ a, seen₁.any (fun y => y = a) = seen₂.any (fun y => y = a)) →
      firstDedupAux seen₁ xs = firstDedupAux seen₂ xs
  | [], _, _, _ => rfl
  | x :: xs, seen₁, seen₂, h => by
    rw [firstDedupAux, firstDedupAux, h x]
    by_cases hx : seen₂.any (fun y => y = x) = true
    · rw [if_pos hx, if_pos hx]
      exact firstDedupAux_congr xs seen₁ seen₂ h
    · rw [if_neg hx, if_neg hx]
      refine congrArg (x :: ·) (firstDedupAux_congr xs _ _ fun a => ?_)
      simp [List.any_cons, h a]

/-- Presence of a key among the pairs equals presence among the keys. -/
theorem any_fst_eq (k : String) :
    ∀ d : List (String × ConstraintSet),
      d.any (fun p => p.1 = k) = (d.map Prod.fst).any (fun y => y = k)
  | [] => rfl
  | p :: d => by simp [List.any_cons, any_fst_eq k d]

/-- Invariant of the `process_schema` table loop: with every table named and
every per-table extraction succeeding, the loop succeeds; its key sequence
extends the accumulator's keys by the first occurrence of each new table
name in document order; and each name looks up the ConstraintSet of the
LAST table carrying that name (later duplicates overwrite earlier ones). -/
theorem processTables_spec (q : String) :
    ∀ (ts : List Table) (acc : List (String × ConstraintSet)),
      (∀ t ∈ ts, t.name.isSome) →
      (∀ t ∈ ts, ∃ cs, tableCS q t = Except.ok cs) →
      ∃ d, processTables q ts acc = Except.ok d ∧
        d.map Prod.fst = acc.map Prod.fst ++
          firstDedupAux (acc.map Prod.fst)
            (ts.map (fun t => t.name.getD "")) ∧
        ∀ n, dictFind? n d =
          match (ts.filter (fun t => t.name.getD "" = n)).getLast? with
          | some t => (tableCS q t).toOption
          | none => dictFind? n acc
  | [], acc, _, _ => ⟨acc, rfl, by simp [firstDedupAux], fun n => rfl⟩
  | t :: ts, acc, h1, h2 => by
    rcases Option.isSome_iff_exists.mp (h1 t (List.mem_cons_self _ _))
      with ⟨tn, htn⟩
    rcases h2 t (List.mem_cons_self _ _) with ⟨cs, hcs⟩
    rcases processTables_spec q ts (dictSet acc tn cs)
        (fun u hu => h1 u (List.mem_cons_of_mem _ hu))
        (fun u hu => h2 u (List.mem_cons_of_mem _ hu))
      with ⟨d, hd, hkeys, hfind⟩
    refine ⟨d, ?_, ?_, ?_⟩
    · rw [processTables, htn, hcs]
      exact hd
    · rw [hkeys, dictSet_keys]
      simp only [List.map_cons, htn, Option.getD_some]
      rw [firstDedupAux, ← any_fst_eq tn acc]
      by_cases hA : acc.any (fun p => p.1 = tn) = true
      · rw [if_pos hA, if_pos hA]
      · rw [if_neg hA, if_neg hA, List.append_assoc, List.singleton_append]
        refine congrArg (fun z => acc.map Prod.fst ++ tn :: z)
          (firstDedupAux_congr _ _ _ fun a => ?_)
        simp [List.any_append, List.any_cons, Bool.or_comm]
    · intro n
      rw [hfind n, List.filter_cons]
      by_cases hn : tn = n
      · subst hn
        rw [if_pos (show ((fun u => decide (u.name.getD "" = tn)) t) = true
              from by simp [htn])]
        cases hfil : ts.filter (fun u => u.name.getD "" = tn) with
        | nil =>
          show dictFind? tn (dictSet acc tn cs) = (tableCS q t).toOption
          rw [dictFind?_dictSet, if_pos rfl, hcs]
          rfl
        | cons t' l' =>
          rw [List.getLast?_cons_cons, List.getLast?_cons]
      · rw [if_neg (show ¬ ((fun u => decide (u.name.getD "" = n)) t = true)
              from by simp [htn, hn])]
        cases hfil : ts.filter (fun u => u.name.getD "" = n) with
        | nil =>
          show dictFind? n (dictSet acc tn cs) = dictFind? n acc
          rw [dictFind?_dictSet, if_neg (fun hc => hn hc.symm)]
        | cons t' l' => rfl

/-- C9: on a document whose tables all carry names and all extract cleanly,
`process_schema` never fails on duplicate names: the returned mapping's key
order is the document order of first occurrence of each name, and each name
maps to the ConstraintSet of the LAST table with that name, the later table
silently overwriting the earlier one. -/
theorem c9_duplicate_overwrite (models : List Table) (q : String)
    (h1 : ∀ t ∈ models, t.name.isSome)
    (h2 : ∀ t ∈ models, ∃ cs, tableCS q t = Except.ok cs) :
    ∃ d, process_schema ⟨some models⟩ q = Except.ok d ∧
      d.map Prod.fst = firstDedup (models.map (fun t => t.name.getD "")) ∧
      ∀ n, dictFind? n d =
        ((models.filter (fun t => t.name.getD "" = n)).getLast?).bind
          (fun t => (tableCS q t).toOption) := by
  rcases processTables_spec q models [] h1 h2 with ⟨d, hd, hkeys, hfind⟩
  refine ⟨d, hd, ?_, fun n => ?_⟩
  · simpa [firstDedup] using hkeys
  · rw [hfind n]
    cases (models.filter (fun t => t.name.getD "" = n)).getLast? with
    | none => rfl
    | some u => rfl


/-- Witness for C9 on a concrete document with a duplicated table name. -/
theorem c9_duplicate_overwrite_witness :
    ∃ d, process_schema ⟨some modelsC9⟩ "q" = Except.ok d ∧
      d.map Prod.fst = firstDedup (modelsC9.map (fun t => t.name.getD "")) ∧
      ∀ n, dictFind? n d =
        ((modelsC9.filter (fun t => t.name.getD "" = n)).getLast?).bind
          (fun t => (tableCS "q" t).toOption) :=
  c9_duplicate_overwrite modelsC9 "q" (by decide)
    (fun t ht => by
      simp only [modelsC9, List.mem_cons, List.not_mem_nil, or_false] at ht
      rcases ht with rfl | rfl | rfl <;> exact ⟨_, rfl⟩)
